import Mathlib

set_option maxRecDepth 8000
set_option maxHeartbeats 1000000

set_option allowUnsafeReducibility true in
attribute [semireducible] Rat.add Rat.mul Rat.inv Rat.sub

namespace Baryonyx

/-! Shallow embedding of the baryonyx In-The-Middle solver core.

Machine integers of the source (int) are modelled as Int / Nat (the engine
asserts all sizes stay below INT_MAX), floating-point values as Rat. -/

/-- Merged constraint: ordered elements (factor, column) and integer bounds,
from the merged_constraint record consumed by the solvers. -/
structure merged_constraint where
  elements : List (Int × Nat)
  min : Int
  max : Int
deriving DecidableEq

/-- Value of a constraint row under an assignment: sum of factor times x bit,
as computed by is_valid_solution and compute_violated_constraints. -/
def rowValue (cst : merged_constraint) (x : List Bool) : Int :=
  (cst.elements.map (fun e => e.1 * (if x.getD e.2 false then 1 else 0))).sum

/-- Number of row elements whose factor is not positive (the lower counter of
the solver_inequalities_101coeff constructor, incremented on the else branch). -/
def lowerCount (cst : merged_constraint) : Int :=
  ((cst.elements.filter (fun e => decide (e.1 ≤ 0))).length : Int)

/-- Number of row elements with positive factor (the upper counter). -/
def upperCount (cst : merged_constraint) : Int :=
  ((cst.elements.filter (fun e => decide (0 < e.1))).length : Int)

/-- Bounds stored in b by the solver_inequalities_101coeff constructor:
equalities keep their bound, inequalities are tightened against the row sums. -/
def boundOf (cst : merged_constraint) : Int × Int :=
  if cst.min = cst.max then (cst.min, cst.max)
  else (Max.max (-(lowerCount cst)) cst.min, Min.min (upperCount cst) cst.max)

/-- Row satisfaction test of is_valid_solution: bounds check of the row value. -/
def rowOk (cst : merged_constraint) (x : List Bool) : Bool :=
  decide ((boundOf cst).1 ≤ rowValue cst x) && decide (rowValue cst x ≤ (boundOf cst).2)

/-- Number of violated constraints, as compute_violated_constraints. -/
def violatedCount (csts : List merged_constraint) (x : List Bool) : Nat :=
  (csts.filter (fun cst => !rowOk cst x)).length

/-- INT_MAX, used by the solver loop as the sentinel and as the infinite limit. -/
def int_max : Int := 2147483647

/-- INT_MAX as a natural number. -/
def intMaxNat : Nat := 2147483647

/-- Modelled from the spec: raw_result (itm-common.hpp is not under src) is the
best record of a solve: assignment, remaining-unsatisfied count (INT_MAX
sentinel before any store), objective value (initialised to the worst value of
the mode, modelled as none) and the loop index of the store. -/
structure raw_result where
  x : List Bool
  remaining_constraints : Nat
  value : Option Rat
  loop : Int
deriving DecidableEq

/-- Initial best record of a solve. -/
def raw_result.initial : raw_result :=
  { x := [], remaining_constraints := intMaxNat, value := none, loop := 0 }

/-- store_if_better(x, remaining, i) of solver_functor: replace the best record
when the candidate strictly decreases the remaining count; the stored objective
value is left untouched. -/
def store_if_better_remaining (best : raw_result) (x : List Bool) (remaining : Nat)
    (i : Int) : raw_result :=
  if remaining < best.remaining_constraints then
    { x := x, remaining_constraints := remaining, value := best.value, loop := i }
  else best

/-- store_if_better(x, current, i) of solver_functor: replace the best record
when the candidate objective value is strictly better than the stored one (a
record that holds no value yet is always replaced); sets the remaining count
to zero. -/
def store_if_better_value (isBetter : Rat → Rat → Bool) (best : raw_result)
    (x : List Bool) (current : Rat) (i : Int) : raw_result :=
  if (match best.value with | none => true | some v => isBetter current v) then
    { x := x, remaining_constraints := 0, value := some current, loop := i }
  else best

/-- Result statuses used by solver_functor. -/
inductive result_status where
  | uninitialized
  | success
  | limit_reached
  | kappa_max_reached
  | time_limit_reached
  | internal_error
deriving DecidableEq

/-- is_time_limit from utils.hpp: false for a non-positive limit, otherwise
true exactly when the elapsed duration exceeds the limit. -/
def is_time_limit (limit elapsed : Rat) : Bool :=
  if limit ≤ 0 then false else decide (limit < elapsed)

/-- Modelled from the spec: the optimisation mode (minimize or maximize). -/
inductive optimise_mode where
  | minimize
  | maximize
deriving DecidableEq

/-- Modelled from the spec: is_better_solution (itm-common.hpp is not under src)
compares objective values strictly in the direction of the optimisation mode. -/
def is_better_solution : optimise_mode → Rat → Rat → Bool
  | .minimize, current, best => decide (current < best)
  | .maximize, current, best => decide (best < current)

/-- Solver parameters read by solver_functor::operator(). -/
structure solver_params where
  limit : Int
  time_limit : Rat
  theta : Rat
  delta : Rat
  kappa_min : Rat
  kappa_step : Rat
  kappa_max : Rat
  w : Rat
  pushes_limit : Int
  pushing_iteration_limit : Int
  pushing_k_factor : Rat
  pushing_objective_amplifier : Rat
deriving DecidableEq

/-- Environment of one solve: the merged constraints, the normalised costs and
their constant, the power function q to q^alpha of the kappa schedule
(std::pow, kept abstract), the per-call effect of compute.run and
compute.push_and_run on the assignment (modelled from the spec: the
constraint-order glue of itm-common.hpp is not under src; each call updates x
and reports the violated count of the updated x, indexed here by a call
counter), the elapsed wall-clock readings, and the is_better_solution
comparison of the mode (kept abstract). -/
structure solve_env where
  csts : List merged_constraint
  costs : List Rat
  cost_constant : Rat
  powFn : Rat → Rat
  passes : Nat → List Bool → List Bool
  elapsed : Nat → Rat
  isBetter : Rat → Rat → Bool

/-- Objective value of an assignment: cost constant plus the costs of the set
bits, as the results member of the solvers. -/
def objective_value (E : solve_env) (x : List Bool) : Rat :=
  E.cost_constant +
    ((List.range E.costs.length).map
      (fun i => if x.getD i false then E.costs.getD i 0 else 0)).sum

/-- Truncation toward zero, as static_cast<int> applied to a floating value. -/
def truncToInt (q : Rat) : Int := if 0 ≤ q then Int.floor q else Int.ceil q

/-- Mutable state of solver_functor::operator(): current assignment, best
record, local best_remaining sentinel, kappa, and the call counter of the
pass oracle. -/
structure solve_state where
  x : List Bool
  best : raw_result
  best_remaining : Nat
  kappa : Rat
  tick : Nat
deriving DecidableEq

/-- Reason the main iteration loop ended (ghost information: the C++ statuses
assigned inside the loop are overwritten after it). -/
inductive exit_cause where
  | feasible
  | kappa_check
  | time_check
  | limit_exhausted
deriving DecidableEq

/-- Main iteration loop of solver_functor::operator() (the for loop over i):
run one pass, store the best, bump kappa after the warmup, stop on feasibility,
kappa overflow or timeout. -/
def main_loop_go (E : solve_env) (p : solver_params) (w_limit : Int) :
    Nat → Int → solve_state → solve_state × exit_cause
  | 0, _, s => (s, .limit_exhausted)
  | Nat.succ fuel, i, s =>
    let x' := E.passes s.tick s.x
    let tick' := s.tick + 1
    let remaining := violatedCount E.csts x'
    if remaining = 0 then
      ({ x := x'
         best := store_if_better_value E.isBetter s.best x' (objective_value E x') i
         best_remaining := 0
         kappa := s.kappa
         tick := tick' }, .feasible)
    else
      let best' := if remaining < s.best_remaining then
          store_if_better_remaining s.best x' remaining i
        else s.best
      let bestRem' := if remaining < s.best_remaining then remaining else s.best_remaining
      let kappa' := if w_limit < i then
          s.kappa + p.kappa_step * E.powFn ((remaining : Rat) / ((E.csts.length : Nat) : Rat))
        else s.kappa
      let s' : solve_state :=
        { x := x'
          best := best'
          best_remaining := bestRem'
          kappa := kappa'
          tick := tick' }
      if p.kappa_max < kappa' then (s', .kappa_check)
      else if is_time_limit p.time_limit (E.elapsed tick') then (s', .time_check)
      else main_loop_go E p w_limit fuel (i + 1) s'

/-- Inner pushing loop (for iter in 0 .. pushing_iteration_limit): plain passes
that only store feasible candidates; kappa keeps its schedule; breaks on kappa
overflow or timeout without touching the status. -/
def push_inner_go (E : solve_env) (p : solver_params) (push : Int) :
    Nat → Int → solve_state → solve_state
  | 0, _, s => s
  | Nat.succ fuel, iter, s =>
    let x' := E.passes s.tick s.x
    let tick' := s.tick + 1
    let remaining := violatedCount E.csts x'
    if remaining = 0 then
      { s with
        x := x'
        tick := tick'
        best := store_if_better_value E.isBetter s.best x' (objective_value E x')
          (-push * p.pushing_iteration_limit - iter - 1) }
    else
      let kappa' := if p.w < (iter : Rat) then
          s.kappa + p.kappa_step * E.powFn ((remaining : Rat) / ((E.csts.length : Nat) : Rat))
        else s.kappa
      let s' := { s with
        x := x'
        tick := tick'
        kappa := kappa' }
      if p.kappa_max < kappa' then s'
      else if is_time_limit p.time_limit (E.elapsed tick') then s'
      else push_inner_go E p push fuel (iter + 1) s'

/-- Outer pushing loop (for push in 0 .. pushes_limit): one amplified pass,
store when feasible, stop on timeout, then the inner plain passes. -/
def push_outer_go (E : solve_env) (p : solver_params) :
    Nat → Int → solve_state → solve_state
  | 0, _, s => s
  | Nat.succ fuel, push, s =>
    let x' := E.passes s.tick s.x
    let tick' := s.tick + 1
    let remaining := violatedCount E.csts x'
    let best' := if remaining = 0 then
        store_if_better_value E.isBetter s.best x' (objective_value E x')
          (-push * p.pushing_iteration_limit - 1)
      else s.best
    let s1 := { s with
      x := x'
      tick := tick'
      best := best' }
    if is_time_limit p.time_limit (E.elapsed tick') then s1
    else
      let s2 := push_inner_go E p push (p.pushing_iteration_limit).toNat 0 s1
      push_outer_go E p fuel (push + 1) s2

/-- Status assigned inside the main loop at its exit (dead stores in the
source: the assignment after the loop overwrites them unless the exit was the
feasibility break, which assigns none). -/
def status_of_exit : exit_cause → result_status
  | .kappa_check => .kappa_max_reached
  | .time_check => .time_limit_reached
  | _ => .uninitialized

/-- Observable outcome of one solve: best record, final status, final kappa
(ghost) and final working assignment (ghost). -/
structure solve_result where
  best : raw_result
  status : result_status
  kappa : Rat
  x : List Bool
deriving DecidableEq

/-- solver_functor::operator(): normalise the limits (a non-positive limit
becomes INT_MAX, a non-positive pushes_limit or pushing_iteration_limit
disables pushing; the non-positive time_limit case needs no rewriting because
is_time_limit already returns false for it), run the main loop from the
initial assignment x0, optionally push, then classify the status: the in-loop
statuses are overwritten with limit_reached when the loop never reached
feasibility, and success is reported exactly when the best record has no
remaining violated constraint. -/
def solve (E : solve_env) (p : solver_params) (x0 : List Bool) : solve_result :=
  let limit : Int := if p.limit ≤ 0 then int_max else p.limit
  let pushes : Int :=
    if p.pushes_limit ≤ 0 then 0
    else if p.pushing_iteration_limit ≤ 0 then 0
    else p.pushes_limit
  let w_limit : Int := truncToInt p.w
  let s0 : solve_state :=
    { x := x0
      best := raw_result.initial
      best_remaining := intMaxNat
      kappa := p.kappa_min
      tick := 0 }
  let r1 := main_loop_go E p w_limit limit.toNat 0 s0
  let s2 := if r1.2 = exit_cause.feasible then push_outer_go E p pushes.toNat 0 r1.1 else r1.1
  let status1 := if r1.2 = exit_cause.feasible then status_of_exit r1.2
    else result_status.limit_reached
  let status2 := if s2.best.remaining_constraints = 0 then result_status.success else status1
  { best := s2.best, status := status2, kappa := s2.kappa, x := s2.x }

/-! Per-row kernel of the inequalities-101 solvers: local state, the variable
affectation step shared verbatim by the buffered and the streaming
implementation, and the two compute_update_row passes. A row is the list of
its elements (column, value index); the parallel arrays A (factors) and P
(preferences) are keyed by value index. -/

/-- Local state touched by a row update: assignment x, preference vector P and
dual vector pi. -/
structure affect_state where
  x : List Bool
  P : List Rat
  pi : List Rat
deriving DecidableEq

/-- Default reduced-cost entry (value, id). -/
def rD : Rat × Nat := (0, 0)

/-- Default row element (column, value index). -/
def eD : Nat × Nat := (0, 0)

/-- One write of affect_variables: set the x bit of a column and add a signed
amount to the P cell of a value index. -/
def apply_cell (s : affect_state) (col vi : Nat) (bit : Bool) (dp : Rat) : affect_state :=
  { s with
    x := s.x.set col bit
    P := s.P.set vi (s.P.getD vi 0 + dp) }

/-- affect_variables of solver_inequalities_101coeff (identical in the buffered
variant): selected < 0 clears every variable of the row and decreases the P
cells by delta; selected+1 >= r_size adds R[selected] to pi[k], sets every bit
and increases the P cells by delta; otherwise pi[k] gains the midpoint of
R[selected] and R[selected+1], d = delta + kappa/(1-kappa) *
(R[selected+1] - R[selected]), the first selected+1 sorted positions are set
to 1 with P += d and the rest to 0 with P -= d. -/
def affect_variables (row : List (Nat × Nat)) (k : Nat) (selected : Int)
    (R : List (Rat × Nat)) (kappa delta : Rat) (s : affect_state) : affect_state :=
  let r_size := R.length
  if selected < 0 then
    (List.range r_size).foldl (fun st i =>
      let var := row.getD (R.getD i rD).2 eD
      apply_cell st var.1 var.2 false (-delta)) s
  else if (r_size : Int) ≤ selected + 1 then
    let s0 := { s with pi := s.pi.set k (s.pi.getD k 0 + (R.getD selected.toNat rD).1) }
    (List.range r_size).foldl (fun st i =>
      let var := row.getD (R.getD i rD).2 eD
      apply_cell st var.1 var.2 true delta) s0
  else
    let rsel := (R.getD selected.toNat rD).1
    let rsel1 := (R.getD (selected.toNat + 1) rD).1
    let s0 := { s with pi := s.pi.set k (s.pi.getD k 0 + (rsel + rsel1) / 2) }
    let d := delta + kappa / (1 - kappa) * (rsel1 - rsel)
    (List.range r_size).foldl (fun st i =>
      let var := row.getD (R.getD i rD).2 eD
      if i ≤ selected.toNat then apply_cell st var.1 var.2 true d
      else apply_cell st var.1 var.2 false (-d)) s0

/-- Static data of the inequalities-101 kernels: rows of the sparse matrix,
factor array A, stored bounds b, and the normalised costs per column. -/
structure kernel_data where
  rows : List (List (Nat × Nat))
  A : List Int
  b : List (Int × Int)
  cost : List Rat
deriving DecidableEq

/-- Elements (row index, value index) of a column, in row order, as traversed
by the column iterators of the sparse matrix. -/
def column_elems (D : kernel_data) (col : Nat) : List (Nat × Nat) :=
  (List.range D.rows.length).flatMap (fun k =>
    ((D.rows.getD k []).filter (fun e => e.1 == col)).map (fun e => (k, e.2)))

/-- Sums of factor times pi and factor times P over a column: the inner loop of
the streaming compute_reduced_costs and of the sum_ap cache fill of the
buffered pass. -/
def col_sums (D : kernel_data) (st : affect_state) (col : Nat) : Rat × Rat :=
  (column_elems D col).foldl (fun acc e =>
    let a : Rat := ((D.A.getD e.2 0 : Int) : Rat)
    (acc.1 + a * (st.pi.getD e.1 0), acc.2 + a * (st.P.getD e.2 0))) (0, 0)

/-- decrease_preference: multiply the P cells of a row by theta. -/
def decrease_preference (row : List (Nat × Nat)) (theta : Rat) (P : List Rat) : List Rat :=
  row.foldl (fun P e => P.set e.2 (P.getD e.2 0 * theta)) P

/-- Streaming compute_reduced_costs: reduced cost of each row position from the
column sums of the current state; ids are the row positions. -/
def compute_reduced_costs (D : kernel_data) (st : affect_state)
    (row : List (Nat × Nat)) : List (Rat × Nat) :=
  (List.range row.length).map (fun idx =>
    let col := (row.getD idx eD).1
    let sums := col_sums D st col
    (D.cost.getD col 0 - sums.1 - sums.2, idx))

/-- Buffered compute_reduced_costs: identical formula, but the column sums come
from the sum_ap cache filled at the start of the pass. -/
def compute_reduced_costs_buffered (D : kernel_data) (sum_ap : Nat → Rat × Rat)
    (row : List (Nat × Nat)) : List (Rat × Nat) :=
  (List.range row.length).map (fun idx =>
    let col := (row.getD idx eD).1
    (D.cost.getD col 0 - (sum_ap col).1 - (sum_ap col).2, idx))

/-- Stable insertion into a list sorted by ascending reduced cost. -/
def calculator_insert (a : Rat × Nat) : List (Rat × Nat) → List (Rat × Nat)
  | [] => [a]
  | b :: t => if decide (b.1 ≤ a.1) then b :: calculator_insert a t else a :: b :: t

/-- Modelled from the spec: calculator_sort (itm-common.hpp is not under src) is
a randomized stable sort of the reduced costs, ascending for the minimize mode;
the randomness only breaks exact ties, so on tie-free data it equals the
ascending sort modelled here. -/
def calculator_sort_min (R : List (Rat × Nat)) : List (Rat × Nat) :=
  R.foldr calculator_insert []

/-- Modelled from the spec: stop_iterating (itm-common.hpp is not under src)
fires on a sign flip of the reduced cost under the mode, positive for
minimize; its rng argument only breaks exact zero ties. -/
def stop_iterating_min (v : Rat) : Bool := decide (0 < v)

/-- Integers from a to b exclusive, the loop of the buffered
select_variables_inequality (empty when b <= a; the source loop would not
terminate for b < a). -/
def int_range_excl (a b : Int) : List Int :=
  (List.range (b - a).toNat).map (fun (j : Nat) => a + (j : Int))

/-- Integers from a to b inclusive, the loop of the streaming
select_variables_inequality (empty when b < a). -/
def int_range_incl (a b : Int) : List Int :=
  if b < a then []
  else (List.range ((b - a).toNat + 1)).map (fun (j : Nat) => a + (j : Int))

/-- select_variables_equality of both 101 solvers: min(bk, r_size) - 1. -/
def select_variables_equality (r_size : Nat) (bk : Int) : Int :=
  Min.min bk (r_size : Int) - 1

/-- Streaming select_variables_inequality: clamp the bounds to r_size and scan
i from bkmin to bkmax inclusive for the first stop_iterating hit. -/
def select_variables_inequality (R : List (Rat × Nat)) (r_size : Nat)
    (bkmin bkmax : Int) : Int :=
  let bmin := Min.min bkmin (r_size : Int)
  let bmax := Min.min bkmax (r_size : Int)
  match (int_range_incl bmin bmax).find? (fun i => stop_iterating_min (R.getD i.toNat rD).1) with
  | some i => i - 1
  | none => bmax - 1

/-- Buffered select_variables_inequality: same scan but i runs from bkmin to
bkmax exclusive. -/
def select_variables_inequality_buffered (R : List (Rat × Nat)) (r_size : Nat)
    (bkmin bkmax : Int) : Int :=
  let bmin := Min.min bkmin (r_size : Int)
  let bmax := Min.min bkmax (r_size : Int)
  match (int_range_excl bmin bmax).find? (fun i => stop_iterating_min (R.getD i.toNat rD).1) with
  | some i => i - 1
  | none => bmax - 1

/-- Row positions whose factor is negative: the C vector built by the solver
constructors. -/
def neg_positions (D : kernel_data) (row : List (Nat × Nat)) : List Nat :=
  (List.range row.length).filter (fun idx => decide (D.A.getD (row.getD idx eD).2 0 < 0))

/-- Negation step of the 101 rows: negate the R entry and the P cell of every
position of C. -/
def negate_for_c (row : List (Nat × Nat)) (cpos : List Nat)
    (R : List (Rat × Nat)) (P : List Rat) : List (Rat × Nat) × List Rat :=
  cpos.foldl (fun acc idr =>
    let r := acc.1.getD idr rD
    let vi := (row.getD idr eD).2
    (acc.1.set idr (-r.1, r.2), acc.2.set vi (-(acc.2.getD vi 0)))) (R, P)

/-- Cleanup step of the 101 rows: restore the P signs and flip the x bits of
the negated variables. -/
def cleanup_for_c (row : List (Nat × Nat)) (cpos : List Nat)
    (st : affect_state) : affect_state :=
  cpos.foldl (fun st idr =>
    let var := row.getD idr eD
    { st with
      P := st.P.set var.2 (-(st.P.getD var.2 0))
      x := st.x.set var.1 (!(st.x.getD var.1 false)) }) st

/-- One row of the streaming compute_update_row (objective amplifier zero):
decay the row preferences, compute fresh reduced costs, then dispatch on the
01 / 101 and equality / inequality cases. -/
def update_row_streaming (D : kernel_data) (k : Nat) (kappa delta theta : Rat)
    (st : affect_state) : affect_state :=
  let row := D.rows.getD k []
  let st1 := { st with P := decrease_preference row theta st.P }
  let cpos := neg_positions D row
  let bk := D.b.getD k (0, 0)
  let R := compute_reduced_costs D st1 row
  if cpos.isEmpty then
    let Rs := calculator_sort_min R
    let selected := if bk.1 = bk.2 then select_variables_equality row.length bk.1
      else select_variables_inequality Rs row.length bk.1 bk.2
    affect_variables row k selected Rs kappa delta st1
  else
    let np := negate_for_c row cpos R st1.P
    let st2 := { st1 with P := np.2 }
    let c_size : Int := (cpos.length : Int)
    let Rs := calculator_sort_min np.1
    let selected := if bk.1 = bk.2 then select_variables_equality row.length (bk.1 + c_size)
      else select_variables_inequality Rs row.length (bk.1 + c_size) (bk.2 + c_size)
    let st3 := affect_variables row k selected Rs kappa delta st2
    cleanup_for_c row cpos st3

/-- Streaming compute_update_row over a sequence of constraints. -/
def compute_update_row_streaming (D : kernel_data) (ks : List Nat)
    (kappa delta theta : Rat) (st : affect_state) : affect_state :=
  ks.foldl (fun st k => update_row_streaming D k kappa delta theta st) st

/-- One row of the buffered compute_update_row: identical to the streaming row
except that the reduced costs read the sum_ap cache and the inequality scan is
exclusive; the preference decay happened globally at the start of the pass. -/
def update_row_buffered (D : kernel_data) (sum_ap : Nat → Rat × Rat) (k : Nat)
    (kappa delta : Rat) (st : affect_state) : affect_state :=
  let row := D.rows.getD k []
  let cpos := neg_positions D row
  let bk := D.b.getD k (0, 0)
  let R := compute_reduced_costs_buffered D sum_ap row
  if cpos.isEmpty then
    let Rs := calculator_sort_min R
    let selected := if bk.1 = bk.2 then select_variables_equality row.length bk.1
      else select_variables_inequality_buffered Rs row.length bk.1 bk.2
    affect_variables row k selected Rs kappa delta st
  else
    let np := negate_for_c row cpos R st.P
    let st2 := { st with P := np.2 }
    let c_size : Int := (cpos.length : Int)
    let Rs := calculator_sort_min np.1
    let selected := if bk.1 = bk.2 then select_variables_equality row.length (bk.1 + c_size)
      else select_variables_inequality_buffered Rs row.length (bk.1 + c_size) (bk.2 + c_size)
    let st3 := affect_variables row k selected Rs kappa delta st2
    cleanup_for_c row cpos st3

/-- Buffered compute_update_row over a sequence of constraints: multiply the
whole P array by theta, fill the sum_ap cache from the decayed state, then
update every row against the frozen cache. -/
def compute_update_row_buffered (D : kernel_data) (ks : List Nat)
    (kappa delta theta : Rat) (st : affect_state) : affect_state :=
  let st1 := { st with P := st.P.map (fun p => theta * p) }
  let sum_ap := fun col => col_sums D st1 col
  ks.foldl (fun st k => update_row_buffered D sum_ap k kappa delta st) st1

/-! LP-format operator reading, the preprocessor reduction step, and the
problem-type classification, from lpformat-io.cpp and app main.hpp. -/

/-- Relational operator of the LP format. -/
inductive operator_type where
  | equal
  | greater
  | less
  | undefined
deriving DecidableEq

/-- read_operator from lpformat-io.cpp on the characters of the current token:
returns the operator and the number of characters consumed (substr_front), or
none for the bad_operator failure. -/
def read_operator (s : List Char) : Option (operator_type × Nat) :=
  match s with
  | [] => none
  | c :: rest =>
    if c = Char.ofNat 60 then some (.less, if rest.head? = some (Char.ofNat 61) then 2 else 1)
    else if c = Char.ofNat 62 then some (.greater, if rest.head? = some (Char.ofNat 61) then 2 else 1)
    else if c = Char.ofNat 61 then
      if rest.head? = some (Char.ofNat 60) then some (.less, 2)
      else if rest.head? = some (Char.ofNat 61) then some (.greater, 2)
      else some (.equal, 1)
    else none

/-- Constraint lists of the raw problem that read_constraints appends to. -/
inductive constraint_bucket where
  | equal_constraints
  | greater_constraints
  | less_constraints
deriving DecidableEq

/-- Dispatch of a parsed constraint by its operator, the switch of
read_constraints; undefined raises the unknown file-format failure. -/
def constraint_bucket_of : operator_type → Option constraint_bucket
  | .equal => some .equal_constraints
  | .greater => some .greater_constraints
  | .less => some .less_constraints
  | .undefined => none

/-- Constraint of the raw problem: elements (factor, variable index) and the
right-hand side value. -/
structure pp_constraint where
  elements : List (Int × Nat)
  value : Int
deriving DecidableEq

/-- Problem-definition error tags, after problem_definition_error_format in app
main.hpp; note the taxonomy holds no unrealisable-constraint entry. -/
inductive problem_definition_error_tag where
  | empty_variables
  | empty_objective_function
  | variable_not_used
  | bad_bound
  | multiple_constraints_with_different_value
deriving DecidableEq

/-- Solver error tags, after solver_error_format in app main.hpp; the
unrealisable-constraint error belongs here. -/
inductive solver_error_tag where
  | no_solver_available
  | unrealisable_constraint
  | not_enough_memory
deriving DecidableEq

/-- preprocessor::reduce: fold the already-affected variables of a constraint
into the right-hand side and keep the free elements; some (factor, variable,
result) when exactly one variable stays free, none when the surrounding
bx_ensures assertions fail. -/
def pp_reduce (vars : List (Nat × Bool)) (cst : pp_constraint) :
    Option (Int × Nat × Int) :=
  let acc := cst.elements.foldl (fun acc e =>
    match vars.lookup e.2 with
    | some v => (acc.1 + -1 * (e.1 * (if v then 1 else 0)), acc.2)
    | none => (acc.1, acc.2 ++ [e])) (cst.value, ([] : List (Int × Nat)))
  match acc.2 with
  | [e] => some (e.1, e.2, acc.1)
  | _ => none

/-- Outcomes of preprocessor::reduce_equal_constraint: the tuple (-1, false)
when both values fit (constraint removed), a forced assignment when exactly
one fits, the bx_reach internal assertion when neither fits, and the
bx_ensures failure when reduce found no single free variable. -/
inductive reduce_outcome where
  | removed
  | forced (var_index : Nat) (value : Bool)
  | unreachable_hit
  | ensure_failed
deriving DecidableEq

/-- reduce_equal_constraint of the preprocessor: test whether the remaining
free variable can take the value 0 (factor * 0 == result) or 1
(factor * 1 == result); with neither the code runs into bx_reach. -/
def reduce_equal_constraint (vars : List (Nat × Bool)) (cst : pp_constraint) :
    reduce_outcome :=
  match pp_reduce vars cst with
  | none => .ensure_failed
  | some (factor, var_index, result) =>
    if factor * 0 = result ∧ factor * 1 = result then .removed
    else if factor * 0 = result then .forced var_index false
    else if factor * 1 = result then .forced var_index true
    else .unreachable_hit

/-- Solver variants of problem_solver_type. -/
inductive problem_solver_type where
  | equalities_01
  | equalities_101
  | equalities_Z
  | inequalities_01
  | inequalities_101
  | inequalities_Z
deriving DecidableEq

/-- Constraint lists of a parsed problem, as consulted by get_problem_type. -/
structure problem_lists where
  equal_constraints : List pp_constraint
  greater_constraints : List pp_constraint
  less_constraints : List pp_constraint
deriving DecidableEq

/-- get_problem_type from lpformat-io.cpp: an equalities variant whenever the
greater or the less list is empty, an inequalities variant otherwise; the
coefficient regime (0 for 0/1, 1 for plus or minus one, anything else Z)
selects the variant. -/
def get_problem_type (p : problem_lists) (coefficient : Int) : problem_solver_type :=
  if p.greater_constraints.isEmpty || p.less_constraints.isEmpty then
    if coefficient = 0 then .equalities_01
    else if coefficient = 1 then .equalities_101
    else .equalities_Z
  else
    if coefficient = 0 then .inequalities_01
    else if coefficient = 1 then .inequalities_101
    else .inequalities_Z

/-- Test for the equalities family of solver variants. -/
def is_equalities_variant : problem_solver_type → Bool
  | .equalities_01 => true
  | .equalities_101 => true
  | .equalities_Z => true
  | _ => false

/-! Concrete instances used by witnesses and counterexamples. -/

/-- Environment with one equality constraint x0 = 0 and a pass that always
sets the single bit. -/
def EnvA : solve_env :=
  { csts := [{ elements := [(1, 0)], min := 0, max := 0 }]
    costs := [0]
    cost_constant := 0
    powFn := fun _ => 1
    passes := fun _ _ => [true]
    elapsed := fun _ => 0
    isBetter := fun _ _ => true }

/-- Parameters with limit = 0 and no pushing; the kappa schedule overflows
kappa_max at the first iteration. -/
def pA : solver_params :=
  { limit := 0
    time_limit := 0
    theta := 1
    delta := 1
    kappa_min := 0
    kappa_step := 2
    kappa_max := 1
    w := -1
    pushes_limit := 0
    pushing_iteration_limit := 0
    pushing_k_factor := 1
    pushing_objective_amplifier := 1 }

/-- Environment with one equality constraint x0 = 1 and a pass that sets it. -/
def Env1 : solve_env :=
  { csts := [{ elements := [(1, 0)], min := 1, max := 1 }]
    costs := [1]
    cost_constant := 0
    powFn := fun _ => 0
    passes := fun _ _ => [true]
    elapsed := fun _ => 0
    isBetter := fun _ _ => true }

/-- Quiet parameters: one iteration, no pushing, no kappa growth. -/
def p1 : solver_params :=
  { limit := 1
    time_limit := 0
    theta := 1
    delta := 1
    kappa_min := 0
    kappa_step := 0
    kappa_max := 1
    w := 0
    pushes_limit := 0
    pushing_iteration_limit := 0
    pushing_k_factor := 1
    pushing_objective_amplifier := 1 }

/-- Environment whose first pass leaves x0 = 1 unsatisfied and whose second
pass satisfies it; wall-clock reads one second per pass. -/
def Env7 : solve_env :=
  { csts := [{ elements := [(1, 0)], min := 1, max := 1 }]
    costs := [0]
    cost_constant := 0
    powFn := fun _ => 0
    passes := fun t _ => if t = 0 then [false] else [true]
    elapsed := fun t => (t : Rat)
    isBetter := fun _ _ => true }

/-- Parameters for the time-limit experiment; the time limit itself varies. -/
def p7 : solver_params :=
  { limit := 5
    time_limit := 0
    theta := 1
    delta := 1
    kappa_min := 0
    kappa_step := 0
    kappa_max := 1
    w := 0
    pushes_limit := 0
    pushing_iteration_limit := 0
    pushing_k_factor := 1
    pushing_objective_amplifier := 1 }

/-- Kernel data with two equality rows sharing column 0: row 0 is x0 = 1,
row 1 is x0 + x1 = 1. -/
def D6 : kernel_data :=
  { rows := [[(0, 0)], [(0, 1), (1, 2)]]
    A := [1, 1, 1]
    b := [(1, 1), (1, 1)]
    cost := [1, 5] }

/-- All-zero kernel state for two variables and three matrix cells. -/
def st6 : affect_state := { x := [false, false], P := [0, 0, 0], pi := [0, 0] }

/-- Row of three elements for the affect_variables witness. -/
def row5 : List (Nat × Nat) := [(0, 0), (1, 1), (2, 2)]

/-- Sorted reduced costs for the affect_variables witness. -/
def R5 : List (Rat × Nat) := [(1, 0), (2, 1), (3, 2)]

/-- Start state for the affect_variables witness. -/
def s5 : affect_state := { x := [true, false, true], P := [0, 0, 0], pi := [0] }

/-- Decisive constraint x0 + x1 = 3 for the contradiction counterexample. -/
def c9cst : pp_constraint := { elements := [(1, 0), (1, 1)], value := 3 }

/-- Decisive constraint x0 + x1 = 5 for the contradiction witness. -/
def c9cstW : pp_constraint := { elements := [(1, 0), (1, 1)], value := 5 }

/-- Problem with one less-constraint and no greater-constraint. -/
def pl10 : problem_lists :=
  { equal_constraints := []
    greater_constraints := []
    less_constraints := [{ elements := [(1, 0)], value := 1 }] }

/-- Best records whose zero remaining count certifies that the stored
assignment violates no constraint. -/
def good_best (E : solve_env) (b : raw_result) : Prop :=
  b.remaining_constraints = 0 → violatedCount E.csts b.x = 0

/-! Theorems. -/

/-- C10: problem-type classification picks an equalities variant exactly when
the list of greater-constraints or the list of less-constraints is empty, for
every parsed problem and every coefficient regime; in particular a problem
with only less-constraints (or only greater-constraints) is dispatched to an
equalities solver, and only problems with both families are classified as
inequalities variants. -/
theorem c10_equalities_iff_one_family_absent (p : problem_lists) (coefficient : Int) :
    is_equalities_variant (get_problem_type p coefficient)
      = (p.greater_constraints.isEmpty || p.less_constraints.isEmpty) := by
  unfold get_problem_type
  by_cases h : (p.greater_constraints.isEmpty || p.less_constraints.isEmpty) = true
  · simp only [h, if_true]
    by_cases h0 : coefficient = 0
    · simp [h0, is_equalities_variant]
    · by_cases h1 : coefficient = 1 <;> simp [h0, h1, is_equalities_variant]
  · simp only [Bool.not_eq_true] at h
    simp only [h, Bool.false_eq_true, if_false]
    by_cases h0 : coefficient = 0
    · simp [h0, is_equalities_variant]
    · by_cases h1 : coefficient = 1 <;> simp [h0, h1, is_equalities_variant]

/-- C8: the token of two equality signs is accepted by read_operator, consuming
both characters, but it yields operator_type::greater (the characters are
codes 61 61, an equals pair); read_constraints therefore stores such a
constraint among the greater-constraints, not as an equality. -/
theorem c8_double_equal_reads_as_greater :
    read_operator [Char.ofNat 61, Char.ofNat 61] = some (operator_type.greater, 2) ∧
      constraint_bucket_of operator_type.greater = some constraint_bucket.greater_constraints ∧
      constraint_bucket_of operator_type.greater ≠ some constraint_bucket.equal_constraints := by
  refine ⟨by decide, by decide, by decide⟩

/-- C9 (amended): when propagation meets a decisive constraint whose single
remaining free variable can take neither value (factor * 0 and factor * 1 both
differ from the reduced right-hand side), reduce_equal_constraint runs into
the bx_reach internal assertion; no reduced problem, forced assignment or
problem-definition failure is produced. -/
theorem c9_contradiction_hits_internal_assertion (vars : List (Nat × Bool))
    (cst : pp_constraint) (f : Int) (v : Nat) (r : Int)
    (hred : pp_reduce vars cst = some (f, v, r))
    (h0 : f * 0 ≠ r) (h1 : f * 1 ≠ r) :
    reduce_equal_constraint vars cst = reduce_outcome.unreachable_hit := by
  unfold reduce_equal_constraint
  rw [hred]
  rw [mul_zero] at h0
  rw [mul_one] at h1
  simp [h0, h1]

/-- C9 counterexample: with x1 already forced to 1, the decisive constraint
x0 + x1 = 3 leaves x0 with reduced right-hand side 2, which neither 0 nor 1
matches; the code reaches bx_reach instead of signalling a problem-definition
failure about an unrealisable constraint. -/
theorem c9_counterexample :
    reduce_equal_constraint [(1, true)] c9cst = reduce_outcome.unreachable_hit ∧
      reduce_outcome.unreachable_hit ≠ reduce_outcome.removed := by
  refine ⟨by decide, by decide⟩

/-- C9 witness: the amended theorem applied to the concrete decisive
constraint x0 + x1 = 5 with x1 forced to 1. -/
theorem c9_witness :
    reduce_equal_constraint [(1, true)] c9cstW = reduce_outcome.unreachable_hit :=
  c9_contradiction_hits_internal_assertion [(1, true)] c9cstW 1 0 4
    (by decide) (by decide) (by decide)

/-- Replacing through the remaining-count overload never increases the stored
remaining count. -/
theorem store_if_better_remaining_le (b : raw_result) (x : List Bool) (r : Nat) (i : Int) :
    (store_if_better_remaining b x r i).remaining_constraints ≤ b.remaining_constraints := by
  unfold store_if_better_remaining
  split
  · exact Nat.le_of_lt (by assumption)
  · exact Nat.le_refl _

/-- Replacing through the objective-value overload never increases the stored
remaining count. -/
theorem store_if_better_value_le (f : Rat → Rat → Bool) (b : raw_result) (x : List Bool)
    (v : Rat) (i : Int) :
    (store_if_better_value f b x v i).remaining_constraints ≤ b.remaining_constraints := by
  unfold store_if_better_value
  split
  · exact Nat.zero_le _
  · exact Nat.le_refl _

/-- The best record of the main loop result has a remaining count no larger
than the one it started with. -/
theorem main_loop_go_best_mono (E : solve_env) (p : solver_params) (w_limit : Int) :
    ∀ (fuel : Nat) (i : Int) (s : solve_state),
      (main_loop_go E p w_limit fuel i s).1.best.remaining_constraints
        ≤ s.best.remaining_constraints := by
  intro fuel
  induction fuel with
  | zero => intro i s; simp [main_loop_go]
  | succ n ih =>
    intro i s
    simp only [main_loop_go]
    split
    · exact store_if_better_value_le _ _ _ _ _
    · have hb : (if violatedCount E.csts (E.passes s.tick s.x) < s.best_remaining then
          store_if_better_remaining s.best (E.passes s.tick s.x)
            (violatedCount E.csts (E.passes s.tick s.x)) i
        else s.best).remaining_constraints ≤ s.best.remaining_constraints := by
        split
        · exact store_if_better_remaining_le _ _ _ _
        · exact Nat.le_refl _
      split
      · split
        · exact hb
        · split
          · exact hb
          · exact Nat.le_trans (ih _ _) hb
      · split
        · exact hb
        · split
          · exact hb
          · exact Nat.le_trans (ih _ _) hb

/-- The best record of the inner pushing loop has a remaining count no larger
than the one it started with. -/
theorem push_inner_go_best_mono (E : solve_env) (p : solver_params) (push : Int) :
    ∀ (fuel : Nat) (iter : Int) (s : solve_state),
      (push_inner_go E p push fuel iter s).best.remaining_constraints
        ≤ s.best.remaining_constraints := by
  intro fuel
  induction fuel with
  | zero => intro iter s; simp [push_inner_go]
  | succ n ih =>
    intro iter s
    simp only [push_inner_go]
    split
    · exact store_if_better_value_le _ _ _ _ _
    · split
      · split
        · exact Nat.le_refl _
        · split
          · exact Nat.le_refl _
          · exact ih _ _
      · split
        · exact Nat.le_refl _
        · split
          · exact Nat.le_refl _
          · exact ih _ _

/-- The best record of the outer pushing loop has a remaining count no larger
than the one it started with. -/
theorem push_outer_go_best_mono (E : solve_env) (p : solver_params) :
    ∀ (fuel : Nat) (push : Int) (s : solve_state),
      (push_outer_go E p fuel push s).best.remaining_constraints
        ≤ s.best.remaining_constraints := by
  intro fuel
  induction fuel with
  | zero => intro push s; simp [push_outer_go]
  | succ n ih =>
    intro push s
    simp only [push_outer_go]
    have hb : (if violatedCount E.csts (E.passes s.tick s.x) = 0 then
        store_if_better_value E.isBetter s.best (E.passes s.tick s.x)
          (objective_value E (E.passes s.tick s.x)) (-push * p.pushing_iteration_limit - 1)
      else s.best).remaining_constraints ≤ s.best.remaining_constraints := by
      split
      · exact store_if_better_value_le _ _ _ _ _
      · exact Nat.le_refl _
    split
    · exact hb
    · exact Nat.le_trans (ih _ _) (Nat.le_trans (push_inner_go_best_mono _ _ _ _ _ _) hb)

/-- C4: the best record is replaced by the remaining-count overload only when
the candidate strictly decreases the remaining count; it is replaced by the
objective-value overload only when either the stored remaining count was
positive (and then drops strictly, to zero) or it was zero and the candidate
objective is strictly better in the direction of the optimisation mode;
consequently neither overload nor any loop of the solve ever increases the
recorded remaining count. -/
theorem c4_best_tracking :
    (∀ (b : raw_result) (x : List Bool) (r : Nat) (i : Int),
        store_if_better_remaining b x r i ≠ b →
          r < b.remaining_constraints ∧
            (store_if_better_remaining b x r i).remaining_constraints = r) ∧
    (∀ (f : Rat → Rat → Bool) (b : raw_result) (x : List Bool) (v : Rat) (i : Int),
        0 < b.remaining_constraints → store_if_better_value f b x v i ≠ b →
          (store_if_better_value f b x v i).remaining_constraints < b.remaining_constraints) ∧
    (∀ (m : optimise_mode) (b : raw_result) (x : List Bool) (v : Rat) (i : Int) (old : Rat),
        b.remaining_constraints = 0 → b.value = some old →
          store_if_better_value (is_better_solution m) b x v i ≠ b →
          is_better_solution m v old = true) ∧
    (∀ (b : raw_result) (x : List Bool) (r : Nat) (i : Int),
        (store_if_better_remaining b x r i).remaining_constraints ≤ b.remaining_constraints) ∧
    (∀ (f : Rat → Rat → Bool) (b : raw_result) (x : List Bool) (v : Rat) (i : Int),
        (store_if_better_value f b x v i).remaining_constraints ≤ b.remaining_constraints) ∧
    (∀ (E : solve_env) (p : solver_params) (w_limit : Int) (fuel : Nat) (i : Int)
        (s : solve_state),
        (main_loop_go E p w_limit fuel i s).1.best.remaining_constraints
          ≤ s.best.remaining_constraints) ∧
    (∀ (E : solve_env) (p : solver_params) (push : Int) (fuel : Nat) (iter : Int)
        (s : solve_state),
        (push_inner_go E p push fuel iter s).best.remaining_constraints
          ≤ s.best.remaining_constraints) ∧
    (∀ (E : solve_env) (p : solver_params) (fuel : Nat) (push : Int) (s : solve_state),
        (push_outer_go E p fuel push s).best.remaining_constraints
          ≤ s.best.remaining_constraints) := by
  refine ⟨?_, ?_, ?_, ?_, ?_, ?_, ?_, ?_⟩
  · intro b x r i h
    unfold store_if_better_remaining at h ⊢
    by_cases hc : r < b.remaining_constraints
    · rw [if_pos hc]
      exact ⟨hc, rfl⟩
    · rw [if_neg hc] at h
      exact absurd rfl h
  · intro f b x v i hpos h
    unfold store_if_better_value at h ⊢
    split at h
    · rename_i hguard
      rw [if_pos hguard]
      exact hpos
    · exact absurd rfl h
  · intro m b x v i old hrem hval h
    unfold store_if_better_value at h
    rw [hval] at h
    by_cases hg : is_better_solution m v old = true
    · exact hg
    · simp only [Bool.not_eq_true] at hg
      simp [hg] at h
  · intro b x r i
    exact store_if_better_remaining_le b x r i
  · intro f b x v i
    exact store_if_better_value_le f b x v i
  · intro E p w_limit fuel i s
    exact main_loop_go_best_mono E p w_limit fuel i s
  · intro E p push fuel iter s
    exact push_inner_go_best_mono E p push fuel iter s
  · intro E p fuel push s
    exact push_outer_go_best_mono E p fuel push s

/-- C4 witness: the remaining-count overload applied to the initial best
record with one remaining violated constraint replaces it and records the
strict decrease from the INT_MAX sentinel. -/
theorem c4_witness :
    1 < raw_result.initial.remaining_constraints ∧
      (store_if_better_remaining raw_result.initial [true] 1 0).remaining_constraints = 1 :=
  c4_best_tracking.1 raw_result.initial [true] 1 0 (by decide)

/-- A remaining-count store with a nonzero count preserves good_best. -/
theorem store_if_better_remaining_good (E : solve_env) (b : raw_result) (x : List Bool)
    (r : Nat) (i : Int) (hr : r ≠ 0) (hb : good_best E b) :
    good_best E (store_if_better_remaining b x r i) := by
  unfold store_if_better_remaining
  split
  · intro h0
    exact absurd h0 hr
  · exact hb

/-- An objective-value store of a feasible assignment preserves good_best. -/
theorem store_if_better_value_good (E : solve_env) (f : Rat → Rat → Bool) (b : raw_result)
    (x : List Bool) (v : Rat) (i : Int) (hx : violatedCount E.csts x = 0)
    (hb : good_best E b) : good_best E (store_if_better_value f b x v i) := by
  unfold store_if_better_value
  split
  · intro _
    exact hx
  · exact hb

/-- The main loop preserves good_best. -/
theorem main_loop_go_good (E : solve_env) (p : solver_params) (w_limit : Int) :
    ∀ (fuel : Nat) (i : Int) (s : solve_state), good_best E s.best →
      good_best E (main_loop_go E p w_limit fuel i s).1.best := by
  intro fuel
  induction fuel with
  | zero => intro i s hs; simpa [main_loop_go] using hs
  | succ n ih =>
    intro i s hs
    simp only [main_loop_go]
    split
    · rename_i hz
      exact store_if_better_value_good E _ _ _ _ _ hz hs
    · rename_i hnz
      have hb : good_best E (if violatedCount E.csts (E.passes s.tick s.x) < s.best_remaining then
          store_if_better_remaining s.best (E.passes s.tick s.x)
            (violatedCount E.csts (E.passes s.tick s.x)) i
        else s.best) := by
        split
        · exact store_if_better_remaining_good E _ _ _ _ hnz hs
        · exact hs
      split
      · split
        · exact hb
        · split
          · exact hb
          · exact ih _ _ hb
      · split
        · exact hb
        · split
          · exact hb
          · exact ih _ _ hb

/-- The inner pushing loop preserves good_best. -/
theorem push_inner_go_good (E : solve_env) (p : solver_params) (push : Int) :
    ∀ (fuel : Nat) (iter : Int) (s : solve_state), good_best E s.best →
      good_best E (push_inner_go E p push fuel iter s).best := by
  intro fuel
  induction fuel with
  | zero => intro iter s hs; simpa [push_inner_go] using hs
  | succ n ih =>
    intro iter s hs
    simp only [push_inner_go]
    split
    · rename_i hz
      exact store_if_better_value_good E _ _ _ _ _ hz hs
    · split
      · split
        · exact hs
        · split
          · exact hs
          · exact ih _ _ hs
      · split
        · exact hs
        · split
          · exact hs
          · exact ih _ _ hs

/-- The outer pushing loop preserves good_best. -/
theorem push_outer_go_good (E : solve_env) (p : solver_params) :
    ∀ (fuel : Nat) (push : Int) (s : solve_state), good_best E s.best →
      good_best E (push_outer_go E p fuel push s).best := by
  intro fuel
  induction fuel with
  | zero => intro push s hs; simpa [push_outer_go] using hs
  | succ n ih =>
    intro push s hs
    simp only [push_outer_go]
    have hb : good_best E (if violatedCount E.csts (E.passes s.tick s.x) = 0 then
        store_if_better_value E.isBetter s.best (E.passes s.tick s.x)
          (objective_value E (E.passes s.tick s.x)) (-push * p.pushing_iteration_limit - 1)
      else s.best) := by
      split
      · rename_i hz
        exact store_if_better_value_good E _ _ _ _ _ hz hs
      · exact hs
    split
    · exact hb
    · exact ih _ _ (push_inner_go_good E p _ _ _ _ hb)

/-- The best record of any solve satisfies good_best. -/
theorem solve_best_good (E : solve_env) (p : solver_params) (x0 : List Bool) :
    good_best E (solve E p x0).best := by
  have hinit : good_best E raw_result.initial := by
    intro h
    exact absurd h (by decide)
  simp only [solve]
  split <;> split
  · apply push_outer_go_good
    apply main_loop_go_good
    exact hinit
  · apply main_loop_go_good
    exact hinit
  · apply push_outer_go_good
    apply main_loop_go_good
    exact hinit
  · apply main_loop_go_good
    exact hinit

/-- The loop-exit status is never success. -/
theorem status_of_exit_ne_success (c : exit_cause) :
    status_of_exit c ≠ result_status.success := by
  cases c <;> decide

/-- The final status classification yields success only from a zero remaining
count. -/
theorem status2_success (b : raw_result) (c : Prop) [Decidable c]
    (s1 s2 : result_status) (h1 : s1 ≠ result_status.success)
    (h2 : s2 ≠ result_status.success)
    (h : (if b.remaining_constraints = 0 then result_status.success
      else if c then s1 else s2) = result_status.success) :
    b.remaining_constraints = 0 := by
  by_cases hz : b.remaining_constraints = 0
  · exact hz
  · rw [if_neg hz] at h
    split at h
    · exact absurd h h1
    · exact absurd h h2

/-- A success status forces a zero remaining count in the returned best. -/
theorem solve_success_remaining (E : solve_env) (p : solver_params) (x0 : List Bool)
    (h : (solve E p x0).status = result_status.success) :
    (solve E p x0).best.remaining_constraints = 0 := by
  simp only [solve] at h ⊢
  exact status2_success _ _ _ _ (status_of_exit_ne_success _) (by decide) h

/-- A zero violated count makes every constraint row pass the bounds check. -/
theorem violatedCount_zero_rowOk (csts : List merged_constraint) (x : List Bool)
    (h : violatedCount csts x = 0) : ∀ cst ∈ csts, rowOk cst x = true := by
  intro cst hmem
  unfold violatedCount at h
  rw [List.length_eq_zero] at h
  have hall := List.filter_eq_nil_iff.mp h cst hmem
  simpa using hall

/-- The stored bounds are tighter than the merged ones: a row that passes the
bounds check satisfies the original min and max of its merged constraint. -/
theorem rowOk_bounds (cst : merged_constraint) (x : List Bool)
    (h : rowOk cst x = true) :
    cst.min ≤ rowValue cst x ∧ rowValue cst x ≤ cst.max := by
  unfold rowOk at h
  rw [Bool.and_eq_true, decide_eq_true_eq, decide_eq_true_eq] at h
  unfold boundOf at h
  by_cases he : cst.min = cst.max
  · rw [if_pos he] at h
    exact ⟨h.1, h.2⟩
  · rw [if_neg he] at h
    exact ⟨le_trans (le_max_right _ _) h.1, le_trans h.2 (min_le_right _ _)⟩

/-- C1: whenever a solve returns with status success, the packaged best
assignment satisfies min ≤ sum of factor times x ≤ max for every merged
constraint of the problem, for arbitrary parameters, pass behaviour, costs,
power function and mode comparison. -/
theorem c1_success_satisfies_constraints (E : solve_env) (p : solver_params)
    (x0 : List Bool) (h : (solve E p x0).status = result_status.success) :
    ∀ cst ∈ E.csts, cst.min ≤ rowValue cst (solve E p x0).best.x ∧
      rowValue cst (solve E p x0).best.x ≤ cst.max := by
  intro cst hmem
  have hzero := solve_success_remaining E p x0 h
  have hviol := solve_best_good E p x0 hzero
  exact rowOk_bounds cst _ (violatedCount_zero_rowOk E.csts _ hviol cst hmem)

/-- C1 witness: the one-constraint environment reaches success in one pass and
the packaged assignment satisfies the constraint bounds. -/
theorem c1_witness :
    (solve Env1 p1 []).status = result_status.success ∧
      (1 : Int) ≤ rowValue { elements := [(1, 0)], min := 1, max := 1 }
        (solve Env1 p1 []).best.x := by
  refine ⟨by decide, ?_⟩
  exact (c1_success_satisfies_constraints Env1 p1 [] (by decide)
    { elements := [(1, 0)], min := 1, max := 1 } (by decide)).1

/-- The main loop never reads the limit parameter (its fuel is fixed before
the loop starts). -/
theorem main_loop_go_limit_irrel (E : solve_env) (p : solver_params) (l w_limit : Int) :
    ∀ (fuel : Nat) (i : Int) (s : solve_state),
      main_loop_go E { p with limit := l } w_limit fuel i s
        = main_loop_go E p w_limit fuel i s := by
  intro fuel
  induction fuel with
  | zero => intro i s; rfl
  | succ n ih =>
    intro i s
    simp only [main_loop_go]
    split
    · rfl
    · split
      · split
        · rfl
        · split
          · rfl
          · exact ih _ _
      · split
        · rfl
        · split
          · rfl
          · exact ih _ _

/-- The inner pushing loop never reads the limit parameter. -/
theorem push_inner_go_limit_irrel (E : solve_env) (p : solver_params) (l : Int) (push : Int) :
    ∀ (fuel : Nat) (iter : Int) (s : solve_state),
      push_inner_go E { p with limit := l } push fuel iter s
        = push_inner_go E p push fuel iter s := by
  intro fuel
  induction fuel with
  | zero => intro iter s; rfl
  | succ n ih =>
    intro iter s
    simp only [push_inner_go]
    split
    · rfl
    · split
      · split
        · rfl
        · split
          · rfl
          · exact ih _ _
      · split
        · rfl
        · split
          · rfl
          · exact ih _ _

/-- The outer pushing loop never reads the limit parameter. -/
theorem push_outer_go_limit_irrel (E : solve_env) (p : solver_params) (l : Int) :
    ∀ (fuel : Nat) (push : Int) (s : solve_state),
      push_outer_go E { p with limit := l } fuel push s
        = push_outer_go E p fuel push s := by
  intro fuel
  induction fuel with
  | zero => intro push s; rfl
  | succ n ih =>
    intro push s
    simp only [push_outer_go]
    split
    · rfl
    · rw [push_inner_go_limit_irrel]
      exact ih _ _

/-- C2 (amended): a run with limit = 0 (or any non-positive limit) does not
execute zero iterations and return the initial assignment; the solver
rewrites such a limit to INT_MAX before the loop, so the whole solve behaves
exactly as if limit were INT_MAX. -/
theorem c2_nonpositive_limit_is_int_max (E : solve_env) (p : solver_params)
    (x0 : List Bool) (h : p.limit ≤ 0) :
    solve E p x0 = solve E { p with limit := int_max } x0 := by
  simp only [solve]
  rw [if_pos h, if_neg (by decide : ¬int_max ≤ 0)]
  simp only [main_loop_go_limit_irrel, push_outer_go_limit_irrel]

/-- C2 counterexample: with limit = 0 and pushes_limit = 0 the solver runs at
least one pass; the returned best assignment differs from the initial
assignment (which here violates no constraint), and the returned remaining
count is not the initial assignment's count. -/
theorem c2_counterexample :
    pA.limit = 0 ∧ pA.pushes_limit = 0 ∧
      (solve EnvA pA [false]).best.x ≠ [false] ∧
      violatedCount EnvA.csts [false] = 0 ∧
      (solve EnvA pA [false]).best.remaining_constraints = 1 := by
  refine ⟨by decide, by decide, by decide, by decide, by decide⟩

/-- C2 witness: the amended theorem applied to the concrete limit-zero
parameter set. -/
theorem c2_witness :
    solve EnvA pA [false] = solve EnvA { pA with limit := int_max } [false] :=
  c2_nonpositive_limit_is_int_max EnvA pA [false] (by decide)

/-- With a nonnegative kappa_step and a nonnegative power function, the main
loop never decreases kappa. -/
theorem main_loop_go_kappa_mono (E : solve_env) (p : solver_params) (w_limit : Int)
    (hstep : 0 ≤ p.kappa_step) (hpow : ∀ q, 0 ≤ E.powFn q) :
    ∀ (fuel : Nat) (i : Int) (s : solve_state),
      s.kappa ≤ (main_loop_go E p w_limit fuel i s).1.kappa := by
  intro fuel
  induction fuel with
  | zero => intro i s; exact le_refl _
  | succ n ih =>
    intro i s
    simp only [main_loop_go]
    split
    · exact le_refl _
    · split
      · have hk : s.kappa ≤ s.kappa + p.kappa_step *
            E.powFn ((violatedCount E.csts (E.passes s.tick s.x) : Rat)
              / ((E.csts.length : Nat) : Rat)) :=
          le_add_of_nonneg_right (mul_nonneg hstep (hpow _))
        split
        · exact hk
        · split
          · exact hk
          · exact le_trans hk (ih _ _)
      · split
        · exact le_refl _
        · split
          · exact le_refl _
          · exact ih _ _

/-- With a nonnegative kappa_step and a nonnegative power function, the inner
pushing loop never decreases kappa. -/
theorem push_inner_go_kappa_mono (E : solve_env) (p : solver_params) (push : Int)
    (hstep : 0 ≤ p.kappa_step) (hpow : ∀ q, 0 ≤ E.powFn q) :
    ∀ (fuel : Nat) (iter : Int) (s : solve_state),
      s.kappa ≤ (push_inner_go E p push fuel iter s).kappa := by
  intro fuel
  induction fuel with
  | zero => intro iter s; exact le_refl _
  | succ n ih =>
    intro iter s
    simp only [push_inner_go]
    split
    · exact le_refl _
    · split
      · have hk : s.kappa ≤ s.kappa + p.kappa_step *
            E.powFn ((violatedCount E.csts (E.passes s.tick s.x) : Rat)
              / ((E.csts.length : Nat) : Rat)) :=
          le_add_of_nonneg_right (mul_nonneg hstep (hpow _))
        split
        · exact hk
        · split
          · exact hk
          · exact le_trans hk (ih _ _)
      · split
        · exact le_refl _
        · split
          · exact le_refl _
          · exact ih _ _

/-- With a nonnegative kappa_step and a nonnegative power function, the outer
pushing loop never decreases kappa. -/
theorem push_outer_go_kappa_mono (E : solve_env) (p : solver_params)
    (hstep : 0 ≤ p.kappa_step) (hpow : ∀ q, 0 ≤ E.powFn q) :
    ∀ (fuel : Nat) (push : Int) (s : solve_state),
      s.kappa ≤ (push_outer_go E p fuel push s).kappa := by
  intro fuel
  induction fuel with
  | zero => intro push s; exact le_refl _
  | succ n ih =>
    intro push s
    simp only [push_outer_go]
    split
    · exact le_refl _
    · refine le_trans ?_ (ih _ _)
      exact push_inner_go_kappa_mono E p _ hstep hpow _ _ _

/-- A kappa-check exit of the main loop carries a final kappa strictly above
kappa_max. -/
theorem main_loop_go_kappa_exit (E : solve_env) (p : solver_params) (w_limit : Int) :
    ∀ (fuel : Nat) (i : Int) (s : solve_state),
      (main_loop_go E p w_limit fuel i s).2 = exit_cause.kappa_check →
        p.kappa_max < (main_loop_go E p w_limit fuel i s).1.kappa := by
  intro fuel
  induction fuel with
  | zero => intro i s h; simp [main_loop_go] at h
  | succ n ih =>
    intro i s
    simp only [main_loop_go]
    split
    · intro h
      simp at h
    · split
      · split
        · intro _
          assumption
        · split
          · intro h
            simp at h
          · exact ih _ _
      · split
        · intro _
          assumption
        · split
          · intro h
            simp at h
          · exact ih _ _

/-- When the main loop starts with kappa at most kappa_max and does not exit
through the kappa check, it ends with kappa at most kappa_max. -/
theorem main_loop_go_kappa_le (E : solve_env) (p : solver_params) (w_limit : Int) :
    ∀ (fuel : Nat) (i : Int) (s : solve_state), s.kappa ≤ p.kappa_max →
      (main_loop_go E p w_limit fuel i s).2 ≠ exit_cause.kappa_check →
        (main_loop_go E p w_limit fuel i s).1.kappa ≤ p.kappa_max := by
  intro fuel
  induction fuel with
  | zero => intro i s hs _; exact hs
  | succ n ih =>
    intro i s hs
    simp only [main_loop_go]
    split
    · intro _
      exact hs
    · split
      · split
        · intro hne
          exact absurd rfl hne
        · rename_i hnk
          have hk := not_lt.mp hnk
          split
          · intro _
            exact hk
          · intro hne
            exact ih _ _ hk hne
      · split
        · intro hne
          exact absurd rfl hne
        · rename_i hnk
          have hk := not_lt.mp hnk
          split
          · intro _
            exact hk
          · intro hne
            exact ih _ _ hk hne

/-- C3 (amended): with a nonnegative kappa_step and a nonnegative power term,
kappa never decreases anywhere in a solve (main loop, both pushing loops, and
from kappa_min to the final kappa of the whole solve); the main loop exits
through the kappa check exactly with kappa strictly greater than kappa_max,
while every other exit from a start below kappa_max keeps kappa at most
kappa_max. The original claim fails: at a kappa-check termination kappa
exceeds kappa_max. -/
theorem c3_kappa_schedule (E : solve_env) (p : solver_params)
    (hstep : 0 ≤ p.kappa_step) (hpow : ∀ q, 0 ≤ E.powFn q) :
    (∀ (w_limit : Int) (fuel : Nat) (i : Int) (s : solve_state),
        s.kappa ≤ (main_loop_go E p w_limit fuel i s).1.kappa) ∧
    (∀ (push : Int) (fuel : Nat) (iter : Int) (s : solve_state),
        s.kappa ≤ (push_inner_go E p push fuel iter s).kappa) ∧
    (∀ (fuel : Nat) (push : Int) (s : solve_state),
        s.kappa ≤ (push_outer_go E p fuel push s).kappa) ∧
    (∀ x0 : List Bool, p.kappa_min ≤ (solve E p x0).kappa) ∧
    (∀ (w_limit : Int) (fuel : Nat) (i : Int) (s : solve_state),
        (main_loop_go E p w_limit fuel i s).2 = exit_cause.kappa_check →
          p.kappa_max < (main_loop_go E p w_limit fuel i s).1.kappa) ∧
    (∀ (w_limit : Int) (fuel : Nat) (i : Int) (s : solve_state),
        s.kappa ≤ p.kappa_max →
          (main_loop_go E p w_limit fuel i s).2 ≠ exit_cause.kappa_check →
            (main_loop_go E p w_limit fuel i s).1.kappa ≤ p.kappa_max) := by
  refine ⟨fun w fuel i s => main_loop_go_kappa_mono E p w hstep hpow fuel i s,
    fun push fuel iter s => push_inner_go_kappa_mono E p push hstep hpow fuel iter s,
    fun fuel push s => push_outer_go_kappa_mono E p hstep hpow fuel push s,
    ?_,
    fun w fuel i s => main_loop_go_kappa_exit E p w fuel i s,
    fun w fuel i s => main_loop_go_kappa_le E p w fuel i s⟩
  intro x0
  simp only [solve]
  split <;> split
  · exact le_trans (main_loop_go_kappa_mono E p _ hstep hpow _ _ _)
      (push_outer_go_kappa_mono E p hstep hpow _ _ _)
  · exact main_loop_go_kappa_mono E p _ hstep hpow _ _ _
  · exact le_trans (main_loop_go_kappa_mono E p _ hstep hpow _ _ _)
      (push_outer_go_kappa_mono E p hstep hpow _ _ _)
  · exact main_loop_go_kappa_mono E p _ hstep hpow _ _ _

/-- C3 counterexample: a terminated solve (status limit_reached after the
in-loop kappa-check break) whose final kappa strictly exceeds kappa_max,
against the claim that kappa ≤ kappa_max holds at every termination. -/
theorem c3_counterexample :
    pA.kappa_max < (solve EnvA pA [false]).kappa ∧
      (solve EnvA pA [false]).status = result_status.limit_reached := by
  refine ⟨by decide, by decide⟩

/-- C3 witness: the amended theorem applied to the concrete environment,
giving the solve-level monotonicity from kappa_min. -/
theorem c3_witness : pA.kappa_min ≤ (solve EnvA pA [false]).kappa :=
  (c3_kappa_schedule EnvA pA (by decide) (fun _ => by simp [EnvA])).2.2.2.1 [false]

/-- The final status classification never produces time_limit_reached: the
in-loop status is consulted only after a feasibility exit, where it is
uninitialized. -/
theorem status2_ne_time_limit (b : raw_result) (c : exit_cause) :
    (if b.remaining_constraints = 0 then result_status.success
      else if c = exit_cause.feasible then status_of_exit c
      else result_status.limit_reached) ≠ result_status.time_limit_reached := by
  split
  · decide
  · split
    · rename_i hc
      rw [hc]
      decide
    · decide

/-- C7 (amended): only a non-positive time_limit disables the timeout check;
is_time_limit is active for every positive limit, however small (in
particular below one ten-thousandth), firing exactly when the elapsed time
exceeds it. Moreover no solve ever reports status time_limit_reached, because
the statuses assigned inside the loop are overwritten after it. -/
theorem c7_time_limit_behaviour :
    (∀ limit elapsed : Rat,
        is_time_limit limit elapsed
          = (decide (0 < limit) && decide (limit < elapsed))) ∧
    (∀ (E : solve_env) (p : solver_params) (x0 : List Bool),
        (solve E p x0).status ≠ result_status.time_limit_reached) := by
  constructor
  · intro limit elapsed
    unfold is_time_limit
    by_cases h : limit ≤ 0
    · rw [if_pos h]
      have hn : ¬(0 < limit) := not_lt.mpr h
      simp [hn]
    · rw [if_neg h]
      have hp : 0 < limit := not_le.mp h
      simp [hp]
  · intro E p x0
    simp only [solve]
    exact status2_ne_time_limit _ _

/-- C7 counterexample: the positive time limit of one twenty-thousandth of a
second is strictly below one ten-thousandth, yet the solver does not behave as
if no time limit were set: the run is cut short after the first pass and ends
with a different best assignment and status than the run with the limit
disabled. -/
theorem c7_counterexample :
    0 < (1 : Rat) / 20000 ∧ (1 : Rat) / 20000 < 1 / 10000 ∧
      (solve Env7 { p7 with time_limit := 1 / 20000 } [false]).best.x
        ≠ (solve Env7 { p7 with time_limit := 0 } [false]).best.x ∧
      (solve Env7 { p7 with time_limit := 0 } [false]).status
        = result_status.success ∧
      (solve Env7 { p7 with time_limit := 1 / 20000 } [false]).status
        = result_status.limit_reached := by
  refine ⟨by decide, by decide, by decide, by decide, by decide⟩

/-- Setting a list cell and reading it back with a default yields the written
value when the index is in range. -/
theorem getD_set_self {α : Type} (l : List α) (i : Nat) (a d : α) (h : i < l.length) :
    (l.set i a).getD i d = a := by
  rw [List.getD_eq_getElem?_getD, List.getElem?_set_eq_of_lt a h]
  rfl

/-- Setting a list cell leaves reads at other indices unchanged. -/
theorem getD_set_ne {α : Type} (l : List α) (i j : Nat) (a d : α) (h : i ≠ j) :
    (l.set i a).getD j d = l.getD j d := by
  rw [List.getD_eq_getElem?_getD, List.getElem?_set_ne h, ← List.getD_eq_getElem?_getD]

/-- A fold of apply_cell writes never touch pi. -/
theorem foldl_apply_cell_pi (f : Nat → Nat × Nat) (g : Nat → Bool) (h : Nat → Rat) :
    ∀ (l : List Nat) (s : affect_state),
      (l.foldl (fun st i => apply_cell st (f i).1 (f i).2 (g i) (h i)) s).pi = s.pi := by
  intro l
  induction l with
  | nil => intro s; rfl
  | cons a t ih => intro s; rw [List.foldl_cons]; exact ih _

/-- A fold of apply_cell writes preserves the length of x. -/
theorem foldl_apply_cell_x_length (f : Nat → Nat × Nat) (g : Nat → Bool) (h : Nat → Rat) :
    ∀ (l : List Nat) (s : affect_state),
      (l.foldl (fun st i => apply_cell st (f i).1 (f i).2 (g i) (h i)) s).x.length
        = s.x.length := by
  intro l
  induction l with
  | nil => intro s; rfl
  | cons a t ih =>
    intro s
    rw [List.foldl_cons, ih]
    exact List.length_set _ _ _

/-- A fold of apply_cell writes preserves the length of P. -/
theorem foldl_apply_cell_P_length (f : Nat → Nat × Nat) (g : Nat → Bool) (h : Nat → Rat) :
    ∀ (l : List Nat) (s : affect_state),
      (l.foldl (fun st i => apply_cell st (f i).1 (f i).2 (g i) (h i)) s).P.length
        = s.P.length := by
  intro l
  induction l with
  | nil => intro s; rfl
  | cons a t ih =>
    intro s
    rw [List.foldl_cons, ih]
    exact List.length_set _ _ _

/-- A fold of apply_cell writes leaves x unchanged at columns it never
writes. -/
theorem foldl_apply_cell_x_untouched (f : Nat → Nat × Nat) (g : Nat → Bool)
    (h : Nat → Rat) (col : Nat) (d : Bool) :
    ∀ (l : List Nat) (s : affect_state), (∀ i ∈ l, (f i).1 ≠ col) →
      (l.foldl (fun st i => apply_cell st (f i).1 (f i).2 (g i) (h i)) s).x.getD col d
        = s.x.getD col d := by
  intro l
  induction l with
  | nil => intro s _; rfl
  | cons a t ih =>
    intro s hne
    rw [List.foldl_cons, ih _ (fun i hi => hne i (List.mem_cons_of_mem a hi))]
    exact getD_set_ne _ _ _ _ _ (hne a (List.mem_cons_self a t))

/-- A fold of apply_cell writes leaves P unchanged at cells it never
writes. -/
theorem foldl_apply_cell_P_untouched (f : Nat → Nat × Nat) (g : Nat → Bool)
    (h : Nat → Rat) (vi : Nat) (d : Rat) :
    ∀ (l : List Nat) (s : affect_state), (∀ i ∈ l, (f i).2 ≠ vi) →
      (l.foldl (fun st i => apply_cell st (f i).1 (f i).2 (g i) (h i)) s).P.getD vi d
        = s.P.getD vi d := by
  intro l
  induction l with
  | nil => intro s _; rfl
  | cons a t ih =>
    intro s hne
    rw [List.foldl_cons, ih _ (fun i hi => hne i (List.mem_cons_of_mem a hi))]
    exact getD_set_ne _ _ _ _ _ (hne a (List.mem_cons_self a t))

/-- After a fold of apply_cell writes with pairwise distinct target columns,
the x bit of each written column holds the bit of its write. -/
theorem foldl_apply_cell_x_value (f : Nat → Nat × Nat) (g : Nat → Bool)
    (h : Nat → Rat) :
    ∀ (l : List Nat) (s : affect_state) (i0 : Nat), i0 ∈ l → l.Nodup →
      (∀ j1 ∈ l, ∀ j2 ∈ l, j1 ≠ j2 → (f j1).1 ≠ (f j2).1) →
      (f i0).1 < s.x.length →
      (l.foldl (fun st i => apply_cell st (f i).1 (f i).2 (g i) (h i)) s).x.getD
          (f i0).1 false = g i0 := by
  intro l
  induction l with
  | nil => intro s i0 hmem; exact absurd hmem (List.not_mem_nil i0)
  | cons a t ih =>
    intro s i0 hmem hnodup hdist hlt
    rw [List.foldl_cons]
    rcases List.mem_cons.mp hmem with rfl | hmem'
    · have hne : ∀ i ∈ t, (f i).1 ≠ (f i0).1 := by
        intro i hi
        refine hdist i (List.mem_cons_of_mem i0 hi) i0 (List.mem_cons_self i0 t) ?_
        intro hii
        subst hii
        exact (List.nodup_cons.mp hnodup).1 hi
      rw [foldl_apply_cell_x_untouched f g h _ _ t _ hne]
      exact getD_set_self _ _ _ _ hlt
    · refine ih _ i0 hmem' (List.nodup_cons.mp hnodup).2
        (fun j1 hj1 j2 hj2 => hdist j1 (List.mem_cons_of_mem a hj1)
          j2 (List.mem_cons_of_mem a hj2)) ?_
      have : (apply_cell s (f a).1 (f a).2 (g a) (h a)).x.length = s.x.length :=
        List.length_set _ _ _
      rw [this]
      exact hlt

/-- After a fold of apply_cell writes with pairwise distinct target cells, the
P cell of each write holds its original value plus the written amount. -/
theorem foldl_apply_cell_P_value (f : Nat → Nat × Nat) (g : Nat → Bool)
    (h : Nat → Rat) :
    ∀ (l : List Nat) (s : affect_state) (i0 : Nat), i0 ∈ l → l.Nodup →
      (∀ j1 ∈ l, ∀ j2 ∈ l, j1 ≠ j2 → (f j1).2 ≠ (f j2).2) →
      (f i0).2 < s.P.length →
      (l.foldl (fun st i => apply_cell st (f i).1 (f i).2 (g i) (h i)) s).P.getD
          (f i0).2 0 = s.P.getD (f i0).2 0 + h i0 := by
  intro l
  induction l with
  | nil => intro s i0 hmem; exact absurd hmem (List.not_mem_nil i0)
  | cons a t ih =>
    intro s i0 hmem hnodup hdist hlt
    rw [List.foldl_cons]
    rcases List.mem_cons.mp hmem with rfl | hmem'
    · have hne : ∀ i ∈ t, (f i).2 ≠ (f i0).2 := by
        intro i hi
        refine hdist i (List.mem_cons_of_mem i0 hi) i0 (List.mem_cons_self i0 t) ?_
        intro hii
        subst hii
        exact (List.nodup_cons.mp hnodup).1 hi
      rw [foldl_apply_cell_P_untouched f g h _ _ t _ hne]
      exact getD_set_self _ _ _ _ hlt
    · have hane : (f a).2 ≠ (f i0).2 := by
        refine hdist a (List.mem_cons_self a t) i0 (List.mem_cons_of_mem a hmem') ?_
        intro haa
        subst haa
        exact (List.nodup_cons.mp hnodup).1 hmem'
      have hstep : (apply_cell s (f a).1 (f a).2 (g a) (h a)).P.getD (f i0).2 0
          = s.P.getD (f i0).2 0 := getD_set_ne _ _ _ _ _ hane
      rw [ih _ i0 hmem' (List.nodup_cons.mp hnodup).2
        (fun j1 hj1 j2 hj2 => hdist j1 (List.mem_cons_of_mem a hj1)
          j2 (List.mem_cons_of_mem a hj2)) ?blt, hstep]
      case blt =>
        have : (apply_cell s (f a).1 (f a).2 (g a) (h a)).P.length = s.P.length :=
          List.length_set _ _ _
        rw [this]
        exact hlt

/-- C5: in the local update step with 0 ≤ selected and selected + 1 < r_size,
affect_variables adds (R[selected] + R[selected+1]) / 2 to pi[k], forms
d = delta + (kappa / (1 - kappa)) * (R[selected+1] - R[selected]), sets the x
bits of the top selected + 1 sorted positions to 1 and all the others to 0,
and adds d to the P cells of the selected positions while subtracting d from
the P cells of the rest (the row positions touched are pairwise distinct
columns and value indices, as the sparse matrix guarantees). -/
theorem c5_local_update_middle_branch (row : List (Nat × Nat)) (k : Nat)
    (selected : Int) (R : List (Rat × Nat)) (kappa delta : Rat) (s : affect_state)
    (hsel0 : 0 ≤ selected) (hlt : selected + 1 < (R.length : Int))
    (hdist : ∀ j1, j1 < R.length → ∀ j2, j2 < R.length → j1 ≠ j2 →
      (row.getD (R.getD j1 rD).2 eD).1 ≠ (row.getD (R.getD j2 rD).2 eD).1 ∧
        (row.getD (R.getD j1 rD).2 eD).2 ≠ (row.getD (R.getD j2 rD).2 eD).2)
    (hxb : ∀ j, j < R.length → (row.getD (R.getD j rD).2 eD).1 < s.x.length)
    (hpb : ∀ j, j < R.length → (row.getD (R.getD j rD).2 eD).2 < s.P.length) :
    (affect_variables row k selected R kappa delta s).pi
        = s.pi.set k (s.pi.getD k 0 +
            ((R.getD selected.toNat rD).1 + (R.getD (selected.toNat + 1) rD).1) / 2) ∧
    ∀ j, j < R.length →
      (affect_variables row k selected R kappa delta s).x.getD
          (row.getD (R.getD j rD).2 eD).1 false = decide (j ≤ selected.toNat) ∧
      (affect_variables row k selected R kappa delta s).P.getD
          (row.getD (R.getD j rD).2 eD).2 0
        = s.P.getD (row.getD (R.getD j rD).2 eD).2 0 +
            (if j ≤ selected.toNat then
              delta + kappa / (1 - kappa) *
                ((R.getD (selected.toNat + 1) rD).1 - (R.getD selected.toNat rD).1)
            else
              -(delta + kappa / (1 - kappa) *
                ((R.getD (selected.toNat + 1) rD).1 - (R.getD selected.toNat rD).1))) := by
  have hself : ¬selected < 0 := not_lt.mpr hsel0
  have hfull : ¬((R.length : Int) ≤ selected + 1) := not_le.mpr hlt
  simp only [affect_variables, if_neg hself, if_neg hfull]
  set d := delta + kappa / (1 - kappa) *
    ((R.getD (selected.toNat + 1) rD).1 - (R.getD selected.toNat rD).1) with hd
  set s0 : affect_state := { s with pi := s.pi.set k (s.pi.getD k 0 +
    ((R.getD selected.toNat rD).1 + (R.getD (selected.toNat + 1) rD).1) / 2) } with hs0
  have hfold : (List.range R.length).foldl (fun st i =>
        let var := row.getD (R.getD i rD).2 eD
        if i ≤ selected.toNat then apply_cell st var.1 var.2 true d
        else apply_cell st var.1 var.2 false (-d)) s0
      = (List.range R.length).foldl (fun st i =>
        apply_cell st (row.getD (R.getD i rD).2 eD).1 (row.getD (R.getD i rD).2 eD).2
          (decide (i ≤ selected.toNat)) (if i ≤ selected.toNat then d else -d)) s0 := by
    refine List.foldl_ext _ _ _ ?_
    intro st i _
    by_cases hc : i ≤ selected.toNat
    · simp [hc]
    · simp [hc]
  rw [hfold]
  refine ⟨?_, ?_⟩
  · rw [foldl_apply_cell_pi]
  · intro j hj
    constructor
    · refine foldl_apply_cell_x_value
        (fun i => row.getD (R.getD i rD).2 eD)
        (fun i => decide (i ≤ selected.toNat))
        (fun i => if i ≤ selected.toNat then d else -d)
        (List.range R.length) s0 j (List.mem_range.mpr hj) (List.nodup_range _) ?_ ?_
      · intro j1 hj1 j2 hj2 hne
        exact (hdist j1 (List.mem_range.mp hj1) j2 (List.mem_range.mp hj2) hne).1
      · exact hxb j hj
    · refine foldl_apply_cell_P_value
        (fun i => row.getD (R.getD i rD).2 eD)
        (fun i => decide (i ≤ selected.toNat))
        (fun i => if i ≤ selected.toNat then d else -d)
        (List.range R.length) s0 j (List.mem_range.mpr hj) (List.nodup_range _) ?_ ?_
      · intro j1 hj1 j2 hj2 hne
        exact (hdist j1 (List.mem_range.mp hj1) j2 (List.mem_range.mp hj2) hne).2
      · exact hpb j hj

/-- C5 witness: the middle branch applied to a concrete sorted row of three
elements with selected = 0, kappa = 1/2 and delta = 1, checking the pi update
and the signed P updates. -/
theorem c5_witness :
    (affect_variables row5 0 0 R5 (1 / 2) 1 s5).pi = [(3 : Rat) / 2] ∧
      (affect_variables row5 0 0 R5 (1 / 2) 1 s5).x.getD 2 false = false ∧
      (affect_variables row5 0 0 R5 (1 / 2) 1 s5).P.getD 0 0 = 2 := by
  have h := c5_local_update_middle_branch row5 0 0 R5 (1 / 2) 1 s5
    (by decide) (by decide)
    (by decide)
    (by decide) (by decide)
  refine ⟨h.1.trans (by decide), ?_, ?_⟩
  · exact ((h.2 2 (by decide)).1).trans (by decide)
  · exact ((h.2 0 (by decide)).2).trans (by decide)

/-- Writing back the default-read value of a cell leaves the list unchanged. -/
theorem set_getD_self (l : List Rat) (i : Nat) : l.set i (l.getD i 0) = l := by
  induction l generalizing i with
  | nil => simp
  | cons a t ih =>
    cases i with
    | zero => simp
    | succ n =>
      show a :: t.set n (t.getD n 0) = a :: t
      rw [ih n]

/-- With theta = 1 the per-row preference decay is the identity. -/
theorem decrease_preference_one (row : List (Nat × Nat)) (P : List Rat) :
    decrease_preference row 1 P = P := by
  induction row generalizing P with
  | nil => rfl
  | cons e t ih =>
    show decrease_preference t 1 (P.set e.2 (P.getD e.2 0 * 1)) = P
    rw [mul_one, set_getD_self]
    exact ih P

/-- The inclusive integer range is the exclusive one extended by its upper
endpoint. -/
theorem int_range_incl_eq_append (a b : Int) (h : a ≤ b) :
    int_range_incl a b = int_range_excl a b ++ [b] := by
  simp only [int_range_incl, int_range_excl, if_neg (not_lt.mpr h)]
  rw [List.range_succ, List.map_append]
  simp only [List.map_cons, List.map_nil, List.append_cancel_left_eq, List.cons.injEq,
    and_true]
  rw [Int.toNat_of_nonneg (sub_nonneg.mpr h)]
  ring

/-- The inclusive scan of the streaming select_variables_inequality and the
exclusive scan of the buffered one return the same selected index: a stop at
the upper endpoint itself yields bkmax - 1 either way. -/
theorem select_variables_inequality_eq (R : List (Rat × Nat)) (r_size : Nat)
    (bkmin bkmax : Int) :
    select_variables_inequality R r_size bkmin bkmax
      = select_variables_inequality_buffered R r_size bkmin bkmax := by
  simp only [select_variables_inequality, select_variables_inequality_buffered]
  set bmin := Min.min bkmin (r_size : Int) with hbmin
  set bmax := Min.min bkmax (r_size : Int) with hbmax
  by_cases h : bmax < bmin
  · have h1 : int_range_incl bmin bmax = [] := by
      simp [int_range_incl, h]
    have h2 : int_range_excl bmin bmax = [] := by
      have : (bmax - bmin).toNat = 0 := Int.toNat_eq_zero.mpr (by omega)
      simp [int_range_excl, this]
    rw [h1, h2]
  · push_neg at h
    rw [int_range_incl_eq_append _ _ h, List.find?_append]
    cases hf : (int_range_excl bmin bmax).find?
        (fun i => stop_iterating_min (R.getD i.toNat rD).1) with
    | some i => simp
    | none =>
      by_cases hp : stop_iterating_min (R.getD bmax.toNat rD).1
      · have hp2 : stop_iterating_min ((R[bmax.toNat]?).getD rD).1 = true := by
          rw [List.getD_eq_getElem?_getD] at hp
          exact hp
        simp [List.find?, hp2]
      · have hp2 : stop_iterating_min ((R[bmax.toNat]?).getD rD).1 = false := by
          rw [List.getD_eq_getElem?_getD] at hp
          simpa using hp
        simp [List.find?, hp2]

/-- A buffered row update whose cache was filled from the current state agrees
with a streaming row update with theta = 1. -/
theorem update_row_buffered_eq_streaming (D : kernel_data) (k : Nat)
    (kappa delta : Rat) (st : affect_state) :
    update_row_buffered D (fun col => col_sums D st col) k kappa delta st
      = update_row_streaming D k kappa delta 1 st := by
  simp only [update_row_buffered, update_row_streaming, decrease_preference_one,
    select_variables_inequality_eq]
  rfl

/-- C6 (amended): the buffered and the streaming inequalities-101
compute_update_row coincide on a pass that visits a single constraint with
theta = 1: the sum_ap cache is then filled from exactly the state the streaming
code reads, so the two kernels produce identical x, P and pi. On longer visit
sequences they diverge (see the two-constraint counterexample), because the
buffered cache is not refreshed after earlier rows of the same pass change pi
and P. -/
theorem c6_buffered_matches_streaming_single_row (D : kernel_data) (k : Nat)
    (kappa delta : Rat) (st : affect_state) :
    compute_update_row_buffered D [k] kappa delta 1 st
      = compute_update_row_streaming D [k] kappa delta 1 st := by
  simp only [compute_update_row_buffered, compute_update_row_streaming,
    List.foldl_cons, List.foldl_nil]
  have hmap : st.P.map (fun p => (1 : Rat) * p) = st.P := by
    simp [one_mul]
  rw [hmap]
  exact update_row_buffered_eq_streaming D k kappa delta st

/-- C6 counterexample: on two constraints sharing variable x0, the buffered
pass reads stale cached sums for the second row and computes a different dual
vector pi than the streaming pass. -/
theorem c6_counterexample :
    (compute_update_row_buffered D6 [0, 1] 0 1 1 st6).pi
      ≠ (compute_update_row_streaming D6 [0, 1] 0 1 1 st6).pi := by
  decide

end Baryonyx
